import Mathlib

/-!
Verification of the poddata dashboard's two core subsystems against their
source: the domain clamp of `src/hooks/useZoomPan.js` and the data pipeline
of `usePodcastData` (CSV row parsing, rolling windows, summary statistics,
correlation and insight phrasing).

JavaScript numbers are modelled exactly: a value is either a rational
(no rounding is modelled; all source computations stay rational except
`Math.sqrt`, treated separately over the reals), `NaN`, `Infinity` or
`-Infinity`.  IEEE-754 special-value propagation (`NaN` contagion,
`NaN`-poisoning of `Math.min`/`Math.max`, comparisons returning false on
`NaN`) is embedded faithfully; the signed zero of IEEE-754 is not
distinguished (none of the source code can observe it).
-/

/-- A JavaScript number: `NaN`, `±Infinity`, or a finite value (modelled
as an exact rational, since overflow and rounding never matter at the
magnitudes the source handles). -/
inductive JSQ where
  | nan : JSQ
  | inf : JSQ
  | ninf : JSQ
  | num : ℚ → JSQ
deriving DecidableEq, Repr

namespace JSQ

/-- JS unary minus. -/
def jneg : JSQ → JSQ
  | nan => nan
  | inf => ninf
  | ninf => inf
  | num q => num (-q)

/-- JS `+` on numbers. -/
def jadd : JSQ → JSQ → JSQ
  | nan, _ => nan
  | _, nan => nan
  | inf, ninf => nan
  | ninf, inf => nan
  | inf, _ => inf
  | _, inf => inf
  | ninf, _ => ninf
  | _, ninf => ninf
  | num a, num b => num (a + b)

/-- JS `-` on numbers (addition of the negation, as in IEEE-754). -/
def jsub (a b : JSQ) : JSQ := jadd a (jneg b)

/-- JS `*` on numbers. -/
def jmul : JSQ → JSQ → JSQ
  | nan, _ => nan
  | _, nan => nan
  | inf, inf => inf
  | inf, ninf => ninf
  | ninf, inf => ninf
  | ninf, ninf => inf
  | inf, num b => if b = 0 then nan else if b < 0 then ninf else inf
  | num a, inf => if a = 0 then nan else if a < 0 then ninf else inf
  | ninf, num b => if b = 0 then nan else if b < 0 then inf else ninf
  | num a, ninf => if a = 0 then nan else if a < 0 then inf else ninf
  | num a, num b => num (a * b)

/-- JS `/` on numbers. -/
def jdiv : JSQ → JSQ → JSQ
  | nan, _ => nan
  | _, nan => nan
  | inf, inf => nan
  | inf, ninf => nan
  | ninf, inf => nan
  | ninf, ninf => nan
  | inf, num b => if b < 0 then ninf else inf
  | ninf, num b => if b < 0 then inf else ninf
  | num _, inf => num 0
  | num _, ninf => num 0
  | num a, num b =>
      if b = 0 then (if a = 0 then nan else if a < 0 then ninf else inf)
      else num (a / b)

/-- JS `<`: false whenever an operand is `NaN`. -/
def jlt : JSQ → JSQ → Bool
  | nan, _ => false
  | _, nan => false
  | inf, _ => false
  | ninf, ninf => false
  | ninf, _ => true
  | num _, inf => true
  | num a, num b => decide (a < b)
  | num _, ninf => false

/-- JS `<=`: false whenever an operand is `NaN`. -/
def jle : JSQ → JSQ → Bool
  | nan, _ => false
  | _, nan => false
  | ninf, _ => true
  | _, inf => true
  | inf, _ => false
  | num a, num b => decide (a ≤ b)
  | num _, ninf => false

/-- JS `===` on numbers: `NaN` is not equal to anything, itself included. -/
def jeq : JSQ → JSQ → Bool
  | nan, _ => false
  | _, nan => false
  | a, b => decide (a = b)

/-- `Math.min`: returns `NaN` if either argument is `NaN`. -/
def jmin (a b : JSQ) : JSQ :=
  match a, b with
  | nan, _ => nan
  | _, nan => nan
  | x, y => if jle x y then x else y

/-- `Math.max`: returns `NaN` if either argument is `NaN`. -/
def jmax (a b : JSQ) : JSQ :=
  match a, b with
  | nan, _ => nan
  | _, nan => nan
  | x, y => if jle y x then x else y

end JSQ

open JSQ

/-- `DOMAIN_EPSILON` of `useZoomPan.js`. -/
def DOMAIN_EPSILON : ℚ := 1 / 1000000

/-- The shift-then-clip step of `clampDomain` (`useZoomPan.js` lines 37-46):
given normalized base bounds and candidate bounds (with candidate span below
the base span), translate the window into the base range and hard-clip both
ends.  Returns the updated `(candMin, candMax)`. -/
def shiftClip (baseMin baseMax candMin candMax : JSQ) : JSQ × JSQ :=
  let m2 := if jlt candMin baseMin then jadd candMin (jsub baseMin candMin) else candMin
  let x2 := if jlt candMin baseMin then jadd candMax (jsub baseMin candMin) else candMax
  let m3 := if jlt baseMax x2 then jsub m2 (jsub x2 baseMax) else m2
  let x3 := if jlt baseMax x2 then jsub x2 (jsub x2 baseMax) else x2
  (jmax baseMin m3, jmin baseMax x3)

/-- The body of `clampDomain` for non-null `candidate` and `base`
(`useZoomPan.js` lines 22-54), on pairs of JS numbers. -/
def clampDomainCore (candidate base : JSQ × JSQ) : JSQ × JSQ :=
  let baseMin := jmin base.1 base.2
  let baseMax := jmax base.1 base.2
  let baseSpan := jsub baseMax baseMin
  let candSpan := jsub (jmax candidate.1 candidate.2) (jmin candidate.1 candidate.2)
  -- `candSpan >= baseSpan` collapses to the base; otherwise shift then clip.
  let w := if jle baseSpan candSpan then (baseMin, baseMax)
           else shiftClip baseMin baseMax (jmin candidate.1 candidate.2) (jmax candidate.1 candidate.2)
  if jlt (jsub w.2 w.1) (num DOMAIN_EPSILON) then base
  else if jle base.1 base.2 then (w.1, w.2) else (w.2, w.1)

/-- `clampDomain` of `useZoomPan.js` including its null guard
(`!candidate || !base` returns `candidate ?? base`). -/
def clampDomain : Option (JSQ × JSQ) → Option (JSQ × JSQ) → Option (JSQ × JSQ)
  | some c, some b => some (clampDomainCore c b)
  | none, b => b
  | c, none => c

/-!  The `usePodcastData` pipeline (`usePodcastData.js`). -/

/-- Structural embedding of JS `String.prototype.split(':')`, on the
character list of the string: the empty string yields one empty component,
and every separator occurrence opens a new component. -/
def splitOnColon : List Char → List (List Char)
  | [] => [[]]
  | c :: rest =>
    if c = ':' then [] :: splitOnColon rest
    else
      match splitOnColon rest with
      | s :: ss => (c :: s) :: ss
      | [] => [[c]]

/-- Numeric value of a decimal-digit character list. -/
def natOfDigits (cs : List Char) : ℕ :=
  cs.foldl (fun n c => 10 * n + (c.toNat - 48)) 0

/-- JS `Number(string)` on the fragment of its domain the CSV exercises:
the empty string coerces to `0`, an unsigned decimal-digit string to its
value, anything else (in particular non-numeric text) to `NaN`.  Signs,
fractional points and exponents never occur in the dataset's cells and are
not modelled. -/
def jsNumber (cs : List Char) : JSQ :=
  if cs = [] then .num 0
  else if cs.all Char.isDigit then .num (natOfDigits cs) else .nan

/-- One raw CSV record (all cells are strings, as delivered by `d3.csv`). -/
structure RawRow where
  episode : String
  title : String
  description : String
  guest : String
  duration : String
  downloads : String
  completion_numbers : String
  new_listeners : String
  returning_listeners : String
  subscribers_gained : String
  social_media_shares : String
deriving DecidableEq, Repr

/-- The output of `parseRow` (`usePodcastData.js` lines 6-30). -/
structure PRow where
  episode : JSQ
  title : String
  description : String
  guest : String
  durationMinutes : JSQ
  downloads : JSQ
  completionNumbers : JSQ
  completionRate : JSQ
  newListeners : JSQ
  returningListeners : JSQ
  listenersTotal : JSQ
  subscribersGained : JSQ
  socialMediaShares : JSQ
deriving DecidableEq, Repr

/-- `parseRow` (`usePodcastData.js` lines 6-30).  The duration cell is split
on `:`; the first three components (missing ones `undefined`) feed
`hours * 60 + minutes + seconds / 60`. -/
def parseRow (row : RawRow) : PRow :=
  let parts := (splitOnColon row.duration.data).map jsNumber
  let hours := (parts.get? 0).getD .nan
  let minutes := (parts.get? 1).getD .nan
  let seconds := (parts.get? 2).getD .nan
  let durationMinutes := jadd (jadd (jmul hours (.num 60)) minutes) (jdiv seconds (.num 60))
  let downloads := jsNumber row.downloads.data
  let completionNumbers := jsNumber row.completion_numbers.data
  let newListeners := jsNumber row.new_listeners.data
  let returningListeners := jsNumber row.returning_listeners.data
  { episode := jsNumber row.episode.data
    title := row.title
    description := row.description
    guest := row.guest
    durationMinutes := durationMinutes
    downloads := downloads
    completionNumbers := completionNumbers
    completionRate := if jeq downloads (.num 0) then .num 0 else jdiv completionNumbers downloads
    newListeners := newListeners
    returningListeners := returningListeners
    listenersTotal := jadd newListeners returningListeners
    subscribersGained := jsNumber row.subscribers_gained.data
    socialMediaShares := jsNumber row.social_media_shares.data }

/-- `averageInWindow` (`usePodcastData.js` lines 32-37): mean of
`accessor` over `series.slice(max(0, index - (window-1)), index + 1)`.
An empty slice divides `0/0`, i.e. yields `NaN`, exactly as in JS. -/
def averageInWindow {α : Type} (series : List α) (index : ℕ) (accessor : α → JSQ)
    (window : ℕ := 7) : JSQ :=
  let start := max 0 (index - (window - 1))
  let slice := (series.drop start).take (index + 1 - start)
  let total := slice.foldl (fun sum item => jadd sum (accessor item)) (.num 0)
  jdiv total (.num slice.length)

/-- The `variance` helper inside `correlation` (`usePodcastData.js` line 47),
over exact reals. -/
def varianceAt (values : List ℝ) (mean : ℝ) : ℝ :=
  values.foldl (fun sum v => sum + (v - mean) ^ 2) 0

/-- `correlation` (`usePodcastData.js` lines 39-50) over exact reals
(`Math.sqrt` is the one irrational operation of the source, so this function
lives in `ℝ`; its inputs in the pipeline are always finite).  The indexed
`reduce` of the source is rendered with `List.enum`. -/
noncomputable def correlation {α : Type} (series : List α) (xAccessor yAccessor : α → ℝ) : ℝ :=
  let xs := series.map xAccessor
  let ys := series.map yAccessor
  let n := xs.length
  if n = 0 then 0
  else
    let meanX := xs.sum / n
    let meanY := ys.sum / n
    let numerator := xs.enum.foldl (fun sum p => sum + (p.2 - meanX) * (ys.getD p.1 0 - meanY)) 0
    let denominator := Real.sqrt (varianceAt xs meanX * varianceAt ys meanY)
    if denominator = 0 then 0 else numerator / denominator

/-- A fully derived episode record: a parsed row plus the cumulative,
rolling and per-thousand fields added in the `episodes` map
(`usePodcastData.js` lines 79-99). -/
structure Episode extends PRow where
  cumulativeSubscribers : JSQ
  cumulativeDownloads : JSQ
  downloadsRolling : JSQ
  completionRolling : JSQ
  newListenerRatio : JSQ
  subscribersPerThousandDownloads : JSQ
  sharesPerThousandDownloads : JSQ
deriving DecidableEq, Repr

/-- The `raw.map((item, idx) => ...)` loop building episodes
(`usePodcastData.js` lines 77-99), as a fold carrying the running index and
the two cumulative sums mutated by the source's closure. -/
def buildEpisodesAux (raw : List PRow) : List PRow → ℕ → JSQ → JSQ → List Episode
  | [], _, _, _ => []
  | item :: rest, idx, cumSubs, cumDls =>
    let cumSubs2 := jadd cumSubs item.subscribersGained
    let cumDls2 := jadd cumDls item.downloads
    { toPRow := item
      cumulativeSubscribers := cumSubs2
      cumulativeDownloads := cumDls2
      downloadsRolling := averageInWindow raw idx (fun d => d.downloads) 7
      completionRolling := averageInWindow raw idx (fun d => d.completionRate) 7
      newListenerRatio :=
        if jeq item.listenersTotal (.num 0) then .num 0
        else jdiv item.newListeners item.listenersTotal
      subscribersPerThousandDownloads :=
        if jeq item.downloads (.num 0) then .num 0
        else jmul (jdiv item.subscribersGained item.downloads) (.num 1000)
      sharesPerThousandDownloads :=
        if jeq item.downloads (.num 0) then .num 0
        else jmul (jdiv item.socialMediaShares item.downloads) (.num 1000) } ::
      buildEpisodesAux raw rest (idx + 1) cumSubs2 cumDls2

/-- The derived episode series of `usePodcastData`. -/
def buildEpisodes (raw : List PRow) : List Episode :=
  buildEpisodesAux raw raw 0 (.num 0) (.num 0)

/-- `arrAverage` (`usePodcastData.js` line 104): reduce-sum divided by the
array length; on an empty array this is JS `0/0 = NaN`. -/
def arrAverage {α : Type} (arr : List α) (accessor : α → JSQ) : JSQ :=
  jdiv (arr.foldl (fun sum item => jadd sum (accessor item)) (.num 0)) (.num arr.length)

/-- Finite JS numbers viewed as reals, to feed the real-valued
`correlation`.  In the pipeline the correlated fields are finite for every
well-formed dataset; non-finite values (possible only for malformed CSV
text) are outside the modelled fragment and sent to `0`. -/
def JSQ.toR : JSQ → ℝ
  | .num q => (q : ℝ)
  | _ => 0

/-- The `summary` object (`usePodcastData.js` lines 126-141). -/
structure Summary where
  totalEpisodes : ℕ
  averageDownloads : JSQ
  averageCompletionRate : JSQ
  averageDuration : JSQ
  totalSubscribers : JSQ
  downloadsGrowthPercent : JSQ
  completionRateChange : JSQ
  newListenerShareChange : JSQ
  sharesSubscribersCorrelation : ℝ
  durationCompletionCorrelation : ℝ
  latestEpisode : Option Episode

/-- The summary computation (`usePodcastData.js` lines 101-141):
half-split at `floor(n/2)`, early/late averages, growth and change figures,
and the two Pearson correlations. -/
noncomputable def computeSummary (episodes : List Episode) (cumulativeSubscribers : JSQ) :
    Summary :=
  let halfwayIndex := episodes.length / 2
  let earlySlice := episodes.take halfwayIndex
  let lateSlice := episodes.drop halfwayIndex
  let averageDownloadsEarly := arrAverage earlySlice (fun d => d.downloads)
  let averageDownloadsLate := arrAverage lateSlice (fun d => d.downloads)
  let avgCompletionEarly := arrAverage earlySlice (fun d => d.completionRate)
  let avgCompletionLate := arrAverage lateSlice (fun d => d.completionRate)
  let avgNewListenerRatioEarly := arrAverage earlySlice (fun d => d.newListenerRatio)
  let avgNewListenerRatioLate := arrAverage lateSlice (fun d => d.newListenerRatio)
  { totalEpisodes := episodes.length
    averageDownloads := arrAverage episodes (fun d => d.downloads)
    averageCompletionRate := arrAverage episodes (fun d => d.completionRate)
    averageDuration := arrAverage episodes (fun d => d.durationMinutes)
    totalSubscribers := cumulativeSubscribers
    downloadsGrowthPercent :=
      if jeq averageDownloadsEarly (.num 0) then .num 0
      else jmul (jdiv (jsub averageDownloadsLate averageDownloadsEarly) averageDownloadsEarly)
        (.num 100)
    completionRateChange := jmul (jsub avgCompletionLate avgCompletionEarly) (.num 100)
    newListenerShareChange :=
      jmul (jsub avgNewListenerRatioLate avgNewListenerRatioEarly) (.num 100)
    sharesSubscribersCorrelation :=
      correlation episodes (fun d => d.socialMediaShares.toR) (fun d => d.subscribersGained.toR)
    durationCompletionCorrelation :=
      correlation episodes (fun d => d.durationMinutes.toR) (fun d => d.completionRate.toR)
    latestEpisode := episodes.getLast? }

/-- Which of the two fixed sentence templates an insight uses: the
source's non-negative branch ("positive" framing) or its negative branch
("caution" framing).  The numeric interpolation inside the template strings
(`toFixed`) is presentation and carries no branching. -/
inductive Phrase where
  | positive : Phrase
  | caution : Phrase
deriving DecidableEq, Repr

/-- The sign-dependent insight phrasings (`usePodcastData.js` lines
152-163): both conditionals read `correlation >= 0 ? positive : caution`. -/
noncomputable def insightsOf (summary : Summary) : Phrase × Phrase :=
  ((if 0 ≤ summary.sharesSubscribersCorrelation then .positive else .caution),
   (if 0 ≤ summary.durationCompletionCorrelation then .positive else .caution))

/-- The memoized value published by `usePodcastData` (lines 70-166):
`insights` is `none` for the empty `{}` object of the no-data branch. -/
structure MemoResult where
  episodes : List Episode
  summary : Option Summary
  insights : Option (Phrase × Phrase)

/-- The `useMemo` body of `usePodcastData` (lines 70-166): the empty-input
branch short-circuits to `{ episodes: [], summary: null, insights: {} }`;
otherwise episodes, summary and insights are derived. -/
noncomputable def usePodcastDataMemo (raw : List PRow) : MemoResult :=
  if raw.length = 0 then { episodes := [], summary := none, insights := none }
  else
    let episodes := buildEpisodes raw
    let cumulativeSubscribers :=
      raw.foldl (fun sum item => jadd sum item.subscribersGained) (.num 0)
    let summary := computeSummary episodes cumulativeSubscribers
    { episodes := episodes, summary := some summary, insights := some (insightsOf summary) }

/-- A raw-row fixture whose duration cell is the given string; the other
cells are arbitrary well-formed values. -/
def durationRow (dur : String) : RawRow :=
  { episode := "1", title := "t", description := "d", guest := "g", duration := dur,
    downloads := "100", completion_numbers := "50", new_listeners := "10",
    returning_listeners := "5", subscribers_gained := "2", social_media_shares := "3" }

/-- A parsed-row fixture with zero downloads. -/
def zeroDownloadsPRow : PRow :=
  { episode := num 1, title := "t", description := "", guest := "",
    durationMinutes := num 30, downloads := num 0, completionNumbers := num 0,
    completionRate := num 0, newListeners := num 3, returningListeners := num 2,
    listenersTotal := num 5, subscribersGained := num 2, socialMediaShares := num 4 }

/-- A throwaway episode record used as a `getD` default in concrete
statements. -/
def blankEpisode : Episode :=
  { toPRow := zeroDownloadsPRow, cumulativeSubscribers := num 0,
    cumulativeDownloads := num 0, downloadsRolling := num 0,
    completionRolling := num 0, newListenerRatio := num 0,
    subscribersPerThousandDownloads := num 0, sharesPerThousandDownloads := num 0 }

/-- A summary fixture whose correlations are exactly `0`. -/
noncomputable def zeroSummary : Summary :=
  { totalEpisodes := 0, averageDownloads := num 0, averageCompletionRate := num 0,
    averageDuration := num 0, totalSubscribers := num 0, downloadsGrowthPercent := num 0,
    completionRateChange := num 0, newListenerShareChange := num 0,
    sharesSubscribersCorrelation := 0, durationCompletionCorrelation := 0,
    latestEpisode := none }

/-!  Computation lemmas for the JS-number operations. -/

namespace JSQ

@[simp] theorem jadd_num (a b : ℚ) : jadd (num a) (num b) = num (a + b) := rfl

@[simp] theorem jsub_num (a b : ℚ) : jsub (num a) (num b) = num (a - b) := by
  simp [jsub, jadd, jneg, sub_eq_add_neg]

@[simp] theorem jmul_num (a b : ℚ) : jmul (num a) (num b) = num (a * b) := rfl

@[simp] theorem jadd_nan_right (x : JSQ) : jadd x nan = nan := by cases x <;> rfl

@[simp] theorem jadd_nan_left (x : JSQ) : jadd nan x = nan := by cases x <;> rfl

@[simp] theorem jsub_nan_right (x : JSQ) : jsub x nan = nan := by cases x <;> rfl

@[simp] theorem jsub_nan_left (x : JSQ) : jsub nan x = nan := by cases x <;> rfl

@[simp] theorem jmul_nan_right (x : JSQ) : jmul x nan = nan := by cases x <;> rfl

@[simp] theorem jmul_nan_left (x : JSQ) : jmul nan x = nan := by cases x <;> rfl

@[simp] theorem jdiv_nan_right (x : JSQ) : jdiv x nan = nan := by cases x <;> rfl

@[simp] theorem jdiv_nan_left (x : JSQ) : jdiv nan x = nan := by cases x <;> rfl

@[simp] theorem jle_nan_right (x : JSQ) : jle x nan = false := by cases x <;> rfl

@[simp] theorem jle_nan_left (x : JSQ) : jle nan x = false := by cases x <;> rfl

@[simp] theorem jlt_nan_right (x : JSQ) : jlt x nan = false := by cases x <;> rfl

@[simp] theorem jlt_nan_left (x : JSQ) : jlt nan x = false := by cases x <;> rfl

@[simp] theorem jmin_nan_right (x : JSQ) : jmin x nan = nan := by cases x <;> rfl

@[simp] theorem jmin_nan_left (x : JSQ) : jmin nan x = nan := by cases x <;> rfl

@[simp] theorem jmax_nan_right (x : JSQ) : jmax x nan = nan := by cases x <;> rfl

@[simp] theorem jmax_nan_left (x : JSQ) : jmax nan x = nan := by cases x <;> rfl

@[simp] theorem jle_num (a b : ℚ) : jle (num a) (num b) = decide (a ≤ b) := rfl

@[simp] theorem jlt_num (a b : ℚ) : jlt (num a) (num b) = decide (a < b) := rfl

@[simp] theorem jmin_num (a b : ℚ) : jmin (num a) (num b) = num (min a b) := by
  by_cases h : a ≤ b
  · simp [jmin, jle, h, min_eq_left h]
  · simp [jmin, jle, h, min_eq_right (le_of_not_le h)]

@[simp] theorem jmax_num (a b : ℚ) : jmax (num a) (num b) = num (max a b) := by
  by_cases h : b ≤ a
  · simp [jmax, jle, h, max_eq_left h]
  · simp [jmax, jle, h, max_eq_right (le_of_not_le h)]

@[simp] theorem jeq_num (a b : ℚ) : jeq (num a) (num b) = decide (a = b) := by
  simp [jeq]

@[simp] theorem jeq_nan_left (x : JSQ) : jeq nan x = false := by cases x <;> rfl

@[simp] theorem jeq_nan_right (x : JSQ) : jeq x nan = false := by cases x <;> rfl

end JSQ

/-!  Structural lemmas about `clampDomainCore`. -/

/-- A candidate with a `NaN` bound poisons the whole computation: every
comparison is false, the clip step produces `NaN` on both ends, and the
result is the all-`NaN` pair. -/
theorem clampDomainCore_nan_cand (b0 b1 : ℚ) (c : JSQ × JSQ)
    (h : c.1 = nan ∨ c.2 = nan) : clampDomainCore c (num b0, num b1) = (nan, nan) := by
  obtain ⟨x, y⟩ := c
  rcases h with h | h <;> simp only at h <;> subst h <;>
    simp [clampDomainCore, shiftClip]

/-- Collapse case: any finite candidate at least as wide as the base is
clamped to the base pair verbatim, whatever the orientations. -/
theorem clampDomainCore_wide (b0 b1 c0 c1 : ℚ)
    (h : max b0 b1 - min b0 b1 ≤ max c0 c1 - min c0 c1) :
    clampDomainCore (num c0, num c1) (num b0, num b1) = (num b0, num b1) := by
  simp only [clampDomainCore, shiftClip, jmin_num, jmax_num, jsub_num, jle_num, jlt_num,
    jadd_num, decide_eq_true_eq]
  rw [if_pos h]
  split_ifs with h1 h2
  · rfl
  · simp [min_eq_left h2, max_eq_right h2]
  · have h3 : b1 ≤ b0 := le_of_not_le h2
    simp [min_eq_right h3, max_eq_left h3]

/-- `shiftClip` when the candidate window underflows the base minimum and
the shifted window fits: it lands flush at the left edge. -/
theorem shiftClip_left (bm bM cm cM : ℚ) (h : cm < bm) (h2 : cM + (bm - cm) ≤ bM) :
    shiftClip (num bm) (num bM) (num cm) (num cM) = (num bm, num (cM + (bm - cm))) := by
  simp only [shiftClip, jlt_num, jadd_num, jsub_num, decide_eq_true_eq]
  rw [if_pos h, if_pos h]
  simp only [jlt_num, decide_eq_true_eq]
  rw [if_neg (not_lt.mpr h2), if_neg (not_lt.mpr h2)]
  have e : cm + (bm - cm) = bm := by ring
  rw [e, jmax_num, jmin_num, max_self, min_eq_right h2]

/-- `shiftClip` when the candidate window overflows the base maximum and
the shifted window fits: it lands flush at the right edge. -/
theorem shiftClip_right (bm bM cm cM : ℚ) (h : ¬cm < bm) (h2 : bM < cM)
    (h3 : bm ≤ cm - (cM - bM)) :
    shiftClip (num bm) (num bM) (num cm) (num cM) = (num (cm - (cM - bM)), num bM) := by
  simp only [shiftClip, jlt_num, jadd_num, jsub_num, decide_eq_true_eq]
  rw [if_neg h, if_neg h]
  simp only [jlt_num, decide_eq_true_eq]
  rw [if_pos h2, if_pos h2]
  have e : cM - (cM - bM) = bM := by ring
  simp only [jsub_num, e, jmax_num, jmin_num, min_self, max_eq_right h3]

/-- `shiftClip` when the candidate window already sits inside the base
bounds: both clips are no-ops. -/
theorem shiftClip_mid (bm bM cm cM : ℚ) (h : ¬cm < bm) (h2 : ¬bM < cM) :
    shiftClip (num bm) (num bM) (num cm) (num cM) = (num cm, num cM) := by
  simp only [shiftClip, jlt_num, jadd_num, jsub_num, decide_eq_true_eq]
  rw [if_neg h, if_neg h]
  simp only [jlt_num, decide_eq_true_eq]
  rw [if_neg h2, if_neg h2, jmax_num, jmin_num,
    max_eq_right (le_of_not_lt h), min_eq_right (le_of_not_lt h2)]

/-- An aligned, in-bounds, non-degenerate candidate inside an ascending
base is returned unchanged. -/
theorem clampDomainCore_inbounds_asc (b0 b1 c0 c1 : ℚ) (hb : b0 ≤ b1) (hc : c0 ≤ c1)
    (h1 : b0 ≤ c0) (h2 : c1 ≤ b1) (he : DOMAIN_EPSILON ≤ c1 - c0) :
    clampDomainCore (num c0, num c1) (num b0, num b1) = (num c0, num c1) := by
  have heps : (0 : ℚ) < DOMAIN_EPSILON := by norm_num [DOMAIN_EPSILON]
  rcases le_or_lt (b1 - b0) (c1 - c0) with hw | hw
  · have e0 : c0 = b0 := by linarith
    have e1 : c1 = b1 := by linarith
    rw [e0, e1]
    exact clampDomainCore_wide b0 b1 b0 b1 (le_refl _)
  · simp only [clampDomainCore, jmin_num, jmax_num, jsub_num, jle_num, decide_eq_true_eq]
    rw [min_eq_left hb, max_eq_right hb, min_eq_left hc, max_eq_right hc]
    rw [if_neg (not_le.mpr hw)]
    rw [shiftClip_mid b0 b1 c0 c1 (not_lt.mpr h1) (not_lt.mpr h2)]
    simp only [jsub_num, jlt_num, jle_num, decide_eq_true_eq]
    rw [if_neg (not_lt.mpr he), if_pos hb]

/-- The descending-orientation analogue of `clampDomainCore_inbounds_asc`. -/
theorem clampDomainCore_inbounds_desc (b0 b1 c0 c1 : ℚ) (hb : b1 ≤ b0) (hc : c1 ≤ c0)
    (h1 : b1 ≤ c1) (h2 : c0 ≤ b0) (he : DOMAIN_EPSILON ≤ c0 - c1) :
    clampDomainCore (num c0, num c1) (num b0, num b1) = (num c0, num c1) := by
  have heps : (0 : ℚ) < DOMAIN_EPSILON := by norm_num [DOMAIN_EPSILON]
  have hbb : b1 < b0 := by linarith
  rcases le_or_lt (b0 - b1) (c0 - c1) with hw | hw
  · have e0 : c1 = b1 := by linarith
    have e1 : c0 = b0 := by linarith
    rw [e0, e1]
    exact clampDomainCore_wide b0 b1 b0 b1 (le_refl _)
  · simp only [clampDomainCore, jmin_num, jmax_num, jsub_num, jle_num, decide_eq_true_eq]
    rw [min_eq_right hb, max_eq_left hb, min_eq_right hc, max_eq_left hc]
    rw [if_neg (not_le.mpr hw)]
    rw [shiftClip_mid b1 b0 c1 c0 (not_lt.mpr h1) (not_lt.mpr h2)]
    simp only [jsub_num, jlt_num, jle_num, decide_eq_true_eq]
    rw [if_neg (not_lt.mpr he), if_neg (not_le.mpr hbb)]

/-- Every finite candidate clamps either to the base pair verbatim or to a
non-degenerate in-bounds window, reported in the base's orientation. -/
theorem clampDomainCore_finite_cases (b0 b1 c0 c1 : ℚ) :
    clampDomainCore (num c0, num c1) (num b0, num b1) = (num b0, num b1) ∨
    ∃ m x : ℚ, min b0 b1 ≤ m ∧ x ≤ max b0 b1 ∧ DOMAIN_EPSILON ≤ x - m ∧
      x - m < max b0 b1 - min b0 b1 ∧
      clampDomainCore (num c0, num c1) (num b0, num b1) =
        (if b0 ≤ b1 then ((num m, num x) : JSQ × JSQ) else (num x, num m)) := by
  set bm := min b0 b1 with hbm
  set bM := max b0 b1 with hbM
  set cm := min c0 c1 with hcm
  set cM := max c0 c1 with hcM
  have hbmM : bm ≤ bM := min_le_max
  have hcmM : cm ≤ cM := min_le_max
  rcases le_or_lt (bM - bm) (cM - cm) with hw | hw
  · exact Or.inl (clampDomainCore_wide b0 b1 c0 c1 hw)
  · have step : ∃ m x : ℚ, bm ≤ m ∧ x ≤ bM ∧ x - m = cM - cm ∧
        shiftClip (num bm) (num bM) (num cm) (num cM) = (num m, num x) := by
      rcases lt_or_le cm bm with hL | hL
      · refine ⟨bm, cM + (bm - cm), le_refl _, by linarith, by ring, ?_⟩
        exact shiftClip_left bm bM cm cM hL (by linarith)
      · rcases lt_or_le bM cM with hR | hR
        · refine ⟨cm - (cM - bM), bM, by linarith, le_refl _, by ring, ?_⟩
          exact shiftClip_right bm bM cm cM (not_lt.mpr hL) hR (by linarith)
        · exact ⟨cm, cM, hL, hR, rfl, shiftClip_mid bm bM cm cM (not_lt.mpr hL) (not_lt.mpr hR)⟩
    obtain ⟨m, x, hm, hx, hspan, hsc⟩ := step
    have main : clampDomainCore (num c0, num c1) (num b0, num b1) =
        (if (x - m < DOMAIN_EPSILON) then ((num b0, num b1) : JSQ × JSQ)
         else if b0 ≤ b1 then (num m, num x) else (num x, num m)) := by
      simp only [clampDomainCore, jmin_num, jmax_num, jsub_num, jle_num, decide_eq_true_eq]
      rw [← hbm, ← hbM, ← hcm, ← hcM, if_neg (not_le.mpr hw), hsc]
      simp only [jsub_num, jlt_num, jle_num, decide_eq_true_eq]
    rcases lt_or_le (x - m) DOMAIN_EPSILON with he | he
    · rw [main, if_pos he]
      exact Or.inl rfl
    · refine Or.inr ⟨m, x, hm, hx, he, by rw [hspan]; exact hw, ?_⟩
      rw [main, if_neg (not_lt.mpr he)]

@[simp] theorem jle_num_inf (a : ℚ) : jle (num a) inf = true := rfl

@[simp] theorem jle_inf_num (a : ℚ) : jle inf (num a) = false := rfl

/-- A candidate whose normalized span is `Infinity` always collapses to the
base pair. -/
theorem clampDomainCore_infspan (b0 b1 : ℚ) (c : JSQ × JSQ)
    (h : jsub (jmax c.1 c.2) (jmin c.1 c.2) = inf) :
    clampDomainCore c (num b0, num b1) = (num b0, num b1) := by
  simp only [clampDomainCore, h, jmin_num, jmax_num, jsub_num, jle_num_inf, jlt_num, jle_num,
    if_true, decide_eq_true_eq]
  split_ifs with h1 h2
  · rfl
  · simp [min_eq_left h2, max_eq_right h2]
  · have h3 : b1 ≤ b0 := le_of_not_le h2
    simp [min_eq_right h3, max_eq_left h3]

/-- The two bounds being `+Infinity` (resp. `-Infinity`) poisons the
computation into the all-`NaN` pair, like a `NaN` bound does. -/
theorem clampDomainCore_inf_inf (b0 b1 : ℚ) :
    clampDomainCore (inf, inf) (num b0, num b1) = (nan, nan) := by
  have h1 : jmin (JSQ.inf) (JSQ.inf) = inf := rfl
  have h2 : jmax (JSQ.inf) (JSQ.inf) = inf := rfl
  simp only [clampDomainCore, shiftClip, h1, h2, jmin_num, jmax_num, jsub_num]
  have h3 : jsub inf inf = nan := rfl
  have h4 : jle (num (max b0 b1 - min b0 b1)) nan = false := rfl
  have h5 : jlt inf (num (min b0 b1)) = false := rfl
  have h6 : jlt (num (max b0 b1)) inf = true := rfl
  have h7 : jsub inf (num (max b0 b1)) = inf := rfl
  rw [h3, h4]
  simp only [Bool.false_eq_true, if_false, h5, if_false, h6, if_true, h7, h3]
  simp

theorem clampDomainCore_ninf_ninf (b0 b1 : ℚ) :
    clampDomainCore (ninf, ninf) (num b0, num b1) = (nan, nan) := by
  have h1 : jmin (JSQ.ninf) (JSQ.ninf) = ninf := rfl
  have h2 : jmax (JSQ.ninf) (JSQ.ninf) = ninf := rfl
  simp only [clampDomainCore, shiftClip, h1, h2, jmin_num, jmax_num, jsub_num]
  have h3 : jsub ninf ninf = nan := rfl
  have h4 : jle (num (max b0 b1 - min b0 b1)) nan = false := rfl
  have h5 : jlt ninf (num (min b0 b1)) = true := rfl
  have h6 : jsub (num (min b0 b1)) ninf = inf := rfl
  have h7 : jadd ninf inf = nan := rfl
  rw [h3, h4]
  simp only [Bool.false_eq_true, if_false, h5, if_true, h6, h7]
  simp

/-- Idempotence of the clamp for a finite base and arbitrary candidate. -/
theorem clampDomainCore_idem (b0 b1 : ℚ) (c : JSQ × JSQ) :
    clampDomainCore (clampDomainCore c (num b0, num b1)) (num b0, num b1) =
      clampDomainCore c (num b0, num b1) := by
  have heps : (0 : ℚ) < DOMAIN_EPSILON := by norm_num [DOMAIN_EPSILON]
  obtain ⟨x, y⟩ := c
  have nanStep : clampDomainCore ((nan : JSQ), (nan : JSQ)) (num b0, num b1) = (nan, nan) :=
    clampDomainCore_nan_cand b0 b1 _ (Or.inl rfl)
  have baseStep : clampDomainCore (num b0, num b1) (num b0, num b1) = (num b0, num b1) :=
    clampDomainCore_wide b0 b1 b0 b1 (le_refl _)
  cases x <;> cases y
  case nan.nan => rw [clampDomainCore_nan_cand b0 b1 (nan, nan) (Or.inl rfl), nanStep]
  case nan.inf => rw [clampDomainCore_nan_cand b0 b1 (nan, inf) (Or.inl rfl), nanStep]
  case nan.ninf => rw [clampDomainCore_nan_cand b0 b1 (nan, ninf) (Or.inl rfl), nanStep]
  case nan.num q => rw [clampDomainCore_nan_cand b0 b1 (nan, num q) (Or.inl rfl), nanStep]
  case inf.nan => rw [clampDomainCore_nan_cand b0 b1 (inf, nan) (Or.inr rfl), nanStep]
  case ninf.nan => rw [clampDomainCore_nan_cand b0 b1 (ninf, nan) (Or.inr rfl), nanStep]
  case num.nan q => rw [clampDomainCore_nan_cand b0 b1 (num q, nan) (Or.inr rfl), nanStep]
  case inf.inf => rw [clampDomainCore_inf_inf, nanStep]
  case ninf.ninf => rw [clampDomainCore_ninf_ninf, nanStep]
  case inf.ninf => rw [clampDomainCore_infspan b0 b1 (inf, ninf) rfl, baseStep]
  case ninf.inf => rw [clampDomainCore_infspan b0 b1 (ninf, inf) rfl, baseStep]
  case inf.num q => rw [clampDomainCore_infspan b0 b1 (inf, num q) rfl, baseStep]
  case num.inf q => rw [clampDomainCore_infspan b0 b1 (num q, inf) rfl, baseStep]
  case ninf.num q => rw [clampDomainCore_infspan b0 b1 (ninf, num q) rfl, baseStep]
  case num.ninf q => rw [clampDomainCore_infspan b0 b1 (num q, ninf) rfl, baseStep]
  case num.num c0 c1 =>
    rcases clampDomainCore_finite_cases b0 b1 c0 c1 with h | ⟨m, w, hm, hw, he, hs, h⟩
    · rw [h, baseStep]
    · rw [h]
      by_cases hb : b0 ≤ b1
      · rw [if_pos hb]
        exact clampDomainCore_inbounds_asc b0 b1 m w hb (by linarith)
          (by rw [min_eq_left hb] at hm; exact hm) (by rw [max_eq_right hb] at hw; exact hw) he
      · rw [if_neg hb]
        have hb2 : b1 ≤ b0 := le_of_not_le hb
        exact clampDomainCore_inbounds_desc b0 b1 w m hb2 (by linarith)
          (by rw [min_eq_right hb2] at hm; exact hm) (by rw [max_eq_left hb2] at hw; exact hw) he

/-- A `NaN` bound in the base poisons the whole computation: the clamp
returns the all-`NaN` pair, not the base verbatim. -/
theorem clampDomainCore_nan_base (c0 c1 : ℚ) (b : JSQ × JSQ)
    (h : b.1 = nan ∨ b.2 = nan) : clampDomainCore (num c0, num c1) b = (nan, nan) := by
  obtain ⟨u, v⟩ := b
  rcases h with h | h <;> simp only at h <;> subst h <;>
    simp [clampDomainCore, shiftClip]

/-- C1 (counterexample): for base `[1,50]` and candidate `[-5,44]` the clamp
does not return `[1,49]` as the spec asserts. -/
theorem C1_counterexample :
    clampDomain (some (num (-5), num 44)) (some (num 1, num 50)) ≠ some (num 1, num 49) := by
  have h : clampDomainCore (num (-5), num 44) (num 1, num 50) = (num 1, num 50) := by
    norm_num [clampDomainCore, shiftClip, jmin, jmax, jsub, jadd, jneg, jle, jlt, DOMAIN_EPSILON]
  simp only [clampDomain, h]
  intro hcontra
  simp only [Option.some.injEq, Prod.mk.injEq, JSQ.num.injEq] at hcontra
  norm_num at hcontra

/-- C1 (amended): for base `[1,50]` and candidate `[-5,44]` the clamp
returns the base domain `[1,50]`.  The candidate span (49) equals the base
span, so the zoom-out collapse rule fires; equivalently, shifting the
width-49 window right by the overflow lands exactly on `[1,50]` — the
window is not truncated to `[1,44]`. -/
theorem C1_pan_past_edge :
    clampDomain (some (num (-5), num 44)) (some (num 1, num 50)) = some (num 1, num 50) := by
  have h : clampDomainCore (num (-5), num 44) (num 1, num 50) = (num 1, num 50) := by
    norm_num [clampDomainCore, shiftClip, jmin, jmax, jsub, jadd, jneg, jle, jlt, DOMAIN_EPSILON]
  simp only [clampDomain, h]

/-- C7 (counterexample): for the malformed base `[NaN, 10]` the clamp does
not report the base verbatim — it yields `[NaN, NaN]`. -/
theorem C7_counterexample :
    clampDomain (some (num 20, num 30)) (some (nan, num 10)) ≠ some (nan, num 10) := by
  have h : clampDomainCore (num 20, num 30) (nan, num 10) = (nan, nan) :=
    clampDomainCore_nan_base 20 30 (nan, num 10) (Or.inl rfl)
  simp only [clampDomain, h]
  intro hcontra
  simp only [Option.some.injEq, Prod.mk.injEq] at hcontra
  exact absurd hcontra.2 (by simp)

/-- C7 (amended): a degenerate base with `min == max` makes the clamp a
no-op returning the base verbatim for every finite candidate; a base with a
`NaN` bound instead makes every finite candidate clamp to the degenerate
all-`NaN` pair (still never throwing, and never propagating the
candidate). -/
theorem C7_degenerate_base (q c0 c1 : ℚ) (b : JSQ) :
    clampDomainCore (num c0, num c1) (num q, num q) = (num q, num q)
    ∧ clampDomainCore (num c0, num c1) (nan, b) = (nan, nan)
    ∧ clampDomainCore (num c0, num c1) (b, nan) = (nan, nan) := by
  refine ⟨?_, ?_, ?_⟩
  · exact clampDomainCore_wide q q c0 c1
      (by simp [sub_nonneg.mpr (min_le_max (a := c0) (b := c1))])
  · exact clampDomainCore_nan_base c0 c1 (nan, b) (Or.inl rfl)
  · exact clampDomainCore_nan_base c0 c1 (b, nan) (Or.inr rfl)

/-- C3 (counterexample): an in-bounds candidate is not always returned
unchanged: the degenerate in-bounds candidate `[2,2]` and the
orientation-reversed in-bounds candidate `[30,20]` are both altered by the
clamp against base `[1,50]`. -/
theorem C3_counterexample :
    clampDomainCore (num 2, num 2) (num 1, num 50) ≠ (num 2, num 2)
    ∧ clampDomainCore (num 30, num 20) (num 1, num 50) ≠ (num 30, num 20) := by
  constructor
  · have h : clampDomainCore (num 2, num 2) (num 1, num 50) = (num 1, num 50) := by
      norm_num [clampDomainCore, shiftClip, jmin, jmax, jsub, jadd, jneg, jle, jlt,
        DOMAIN_EPSILON]
    rw [h]
    intro hcontra
    simp only [Prod.mk.injEq, JSQ.num.injEq] at hcontra
    norm_num at hcontra
  · have h : clampDomainCore (num 30, num 20) (num 1, num 50) = (num 20, num 30) := by
      norm_num [clampDomainCore, shiftClip, jmin, jmax, jsub, jadd, jneg, jle, jlt,
        DOMAIN_EPSILON]
    rw [h]
    intro hcontra
    simp only [Prod.mk.injEq, JSQ.num.injEq] at hcontra
    norm_num at hcontra

/-- C3 (amended): for every well-formed (finite) base domain:
an in-bounds candidate that shares the base's orientation and is
non-degenerate (span at least `DOMAIN_EPSILON`) is returned unchanged (both
orientations); any candidate at least as wide as the base clamps to exactly
the base domain; and the clamp is idempotent for every candidate, `NaN` and
infinite bounds included. -/
theorem C3_clamp_algebra :
    (∀ b0 b1 c0 c1 : ℚ, b0 ≤ b1 → c0 ≤ c1 → b0 ≤ c0 → c1 ≤ b1 →
      DOMAIN_EPSILON ≤ c1 - c0 →
      clampDomainCore (num c0, num c1) (num b0, num b1) = (num c0, num c1))
    ∧ (∀ b0 b1 c0 c1 : ℚ, b1 ≤ b0 → c1 ≤ c0 → b1 ≤ c1 → c0 ≤ b0 →
      DOMAIN_EPSILON ≤ c0 - c1 →
      clampDomainCore (num c0, num c1) (num b0, num b1) = (num c0, num c1))
    ∧ (∀ b0 b1 c0 c1 : ℚ, max b0 b1 - min b0 b1 ≤ max c0 c1 - min c0 c1 →
      clampDomainCore (num c0, num c1) (num b0, num b1) = (num b0, num b1))
    ∧ (∀ (b0 b1 : ℚ) (c : JSQ × JSQ),
      clampDomainCore (clampDomainCore c (num b0, num b1)) (num b0, num b1) =
        clampDomainCore c (num b0, num b1)) :=
  ⟨clampDomainCore_inbounds_asc, clampDomainCore_inbounds_desc, clampDomainCore_wide,
    clampDomainCore_idem⟩

/-- C3 witness: the amended in-bounds law applied at base `[1,50]` and
candidate `[2,3]`. -/
theorem C3_witness :
    clampDomainCore (num 2, num 3) (num 1, num 50) = (num 2, num 3) :=
  C3_clamp_algebra.1 1 50 2 3 (by norm_num) (by norm_num) (by norm_num) (by norm_num)
    (by norm_num [DOMAIN_EPSILON])

/-- C2 (counterexample): the malformed duration `"12:34"` does not abort
row parsing with any error — the missing third component coerces to `NaN`
and the parsed duration is silently `NaN`. -/
theorem C2_counterexample :
    (parseRow (durationRow "12:34")).durationMinutes = nan := by
  have hp : (splitOnColon ("12:34" : String).data).map jsNumber = [num 12, num 34] := by
    decide
  simp [parseRow, durationRow, hp]

/-- C2 (amended): `parseDuration` maps well-formed `HH:MM:SS` strings to
minutes (`"01:23:45"` to `83.75`, `"00:00:00"` to `0`), but a string that
does not split into three components raises no error: its missing component
behaves as `NaN` and the parsed duration becomes `NaN`, which flows
downstream. -/
theorem C2_duration_parsing :
    (parseRow (durationRow "01:23:45")).durationMinutes = num (335 / 4)
    ∧ (parseRow (durationRow "00:00:00")).durationMinutes = num 0
    ∧ (∀ row : RawRow, (splitOnColon row.duration.data).length = 2 →
        (parseRow row).durationMinutes = nan) := by
  refine ⟨?_, ?_, ?_⟩
  · have hp : (splitOnColon ("01:23:45" : String).data).map jsNumber =
        [num 1, num 23, num 45] := by decide
    simp only [parseRow, durationRow, hp]
    norm_num [jdiv, jmul_num, jadd_num]
  · have hp : (splitOnColon ("00:00:00" : String).data).map jsNumber =
        [num 0, num 0, num 0] := by decide
    simp only [parseRow, durationRow, hp]
    norm_num [jdiv, jmul_num, jadd_num]
  · intro row h
    have h2 : (splitOnColon row.duration.data)[2]? = none :=
      List.getElem?_eq_none (le_of_eq h)
    simp [parseRow, h2]

/-- C2 witness: the amended malformed-duration law applied to the concrete
two-component duration `"1:2"`. -/
theorem C2_witness : (parseRow (durationRow "1:2")).durationMinutes = nan :=
  C2_duration_parsing.2.2 (durationRow "1:2") (by decide)

/-!  Rolling-window lemmas. -/

/-- Folding `jadd` of finite values is the rational sum. -/
theorem foldl_jadd_num (l : List ℚ) (a : ℚ) :
    l.foldl (fun s q => jadd s (num q)) (num a) = num (a + l.sum) := by
  induction l generalizing a with
  | nil => simp
  | cons x xs ih => simp [List.foldl, ih, add_assoc]

/-- The sum of `take k (drop s xs)` is the sum of the values at indices
`s, s+1, …, s+k-1`. -/
theorem sum_take_drop_getD (xs : List ℚ) (s : ℕ) :
    ∀ k : ℕ, s + k ≤ xs.length →
      ((xs.drop s).take k).sum = ∑ j ∈ Finset.range k, xs.getD (s + j) 0 := by
  intro k
  induction k with
  | zero => simp
  | succ n ih =>
    intro h
    rw [List.take_succ, List.sum_append, ih (by omega), Finset.sum_range_succ]
    have hg : (xs.drop s)[n]? = some (xs.getD (s + n) 0) := by
      rw [List.getElem?_drop]
      have hlt : s + n < xs.length := by omega
      rw [List.getElem?_eq_getElem hlt, List.getD_eq_getElem?_getD,
        List.getElem?_eq_getElem hlt]
      rfl
    rw [hg]
    simp

/-- `averageInWindow` with the default window is the arithmetic mean of the
values at the trailing index window `[i-6, i]` (truncated at zero). -/
theorem averageInWindow_eq (xs : List ℚ) (i : ℕ) (h : i < xs.length) :
    averageInWindow xs i (fun q => num q) 7 =
      num ((∑ j ∈ Finset.Icc (i - 6) i, xs.getD j 0) / ((i - (i - 6) + 1 : ℕ) : ℚ)) := by
  have hstart : max 0 (i - (7 - 1)) = i - 6 := by omega
  have hks : i - 6 + (i + 1 - (i - 6)) ≤ xs.length := by omega
  have hlen : ((xs.drop (i - 6)).take (i + 1 - (i - 6))).length = i + 1 - (i - 6) := by
    rw [List.length_take, List.length_drop]; omega
  simp only [averageInWindow, hstart, foldl_jadd_num, zero_add, hlen,
    sum_take_drop_getD xs (i - 6) (i + 1 - (i - 6)) hks]
  have hrange : ∑ j ∈ Finset.Icc (i - 6) i, xs.getD j 0 =
      ∑ j ∈ Finset.range (i + 1 - (i - 6)), xs.getD ((i - 6) + j) 0 := by
    rw [← Nat.Ico_succ_right, Finset.sum_Ico_eq_sum_range]
  have hk : (i + 1 - (i - 6) : ℕ) = (i - (i - 6) + 1 : ℕ) := by omega
  rw [hrange, hk]
  have hkz : ((i - (i - 6) + 1 : ℕ) : ℚ) ≠ 0 :=
    Nat.cast_ne_zero.mpr (by omega)
  simp only [jdiv, if_neg hkz]

/-- C5: the rolling mean at index `i` is the arithmetic mean of the
trailing window `[max(0, i-6), i]` (the window shrinks at the start of the
series instead of padding); on downloads `[10,20,…,100]` the rolling
average at index 6 is `40` and at index 0 it is exactly `10`. -/
theorem C5_rolling_window :
    (∀ (xs : List ℚ) (i : ℕ), i < xs.length →
      averageInWindow xs i (fun q => num q) 7 =
        num ((∑ j ∈ Finset.Icc (i - 6) i, xs.getD j 0) / ((i - (i - 6) + 1 : ℕ) : ℚ)))
    ∧ averageInWindow ([10, 20, 30, 40, 50, 60, 70, 80, 90, 100] : List ℚ) 6
        (fun q => num q) 7 = num 40
    ∧ averageInWindow ([10, 20, 30, 40, 50, 60, 70, 80, 90, 100] : List ℚ) 0
        (fun q => num q) 7 = num 10 := by
  refine ⟨averageInWindow_eq, ?_, ?_⟩
  · have h1 : averageInWindow ([10, 20, 30, 40, 50, 60, 70, 80, 90, 100] : List ℚ) 6
        (fun q => num q) 7 =
        jdiv (num (0 + 10 + 20 + 30 + 40 + 50 + 60 + 70)) (num 7) := rfl
    rw [h1, show ((0 : ℚ) + 10 + 20 + 30 + 40 + 50 + 60 + 70) = 280 by norm_num]
    norm_num [jdiv]
  · have h2 : averageInWindow ([10, 20, 30, 40, 50, 60, 70, 80, 90, 100] : List ℚ) 0
        (fun q => num q) 7 = jdiv (num (0 + 10)) (num 1) := rfl
    rw [h2, show ((0 : ℚ) + 10) = 10 by norm_num]
    norm_num [jdiv]

/-- C5 witness: the window law applied at the concrete series `[5,7]` and
index `1`. -/
theorem C5_witness :
    averageInWindow ([5, 7] : List ℚ) 1 (fun q => num q) 7 =
      num ((∑ j ∈ Finset.Icc (1 - 6) 1, ([5, 7] : List ℚ).getD j 0) /
        ((1 - (1 - 6) + 1 : ℕ) : ℚ)) :=
  C5_rolling_window.1 [5, 7] 1 (by decide)

/-!  Pipeline lemmas. -/

/-- Building episodes preserves the list length. -/
theorem buildEpisodesAux_length (raw : List PRow) :
    ∀ (l : List PRow) (idx : ℕ) (cs cd : JSQ),
      (buildEpisodesAux raw l idx cs cd).length = l.length := by
  intro l
  induction l with
  | nil => intro idx cs cd; rfl
  | cons item rest ih =>
    intro idx cs cd
    rw [buildEpisodesAux]
    simp [ih]

/-- The average of an empty array is JS `0/0`, i.e. `NaN`. -/
theorem arrAverage_nil {α : Type} (f : α → JSQ) : arrAverage ([] : List α) f = nan := by
  simp [arrAverage, jdiv]

/-- Every episode produced by the builder whose row had zero downloads gets
zero in both per-thousand fields. -/
theorem buildEpisodesAux_zero_downloads (raw : List PRow) :
    ∀ (l : List PRow) (idx : ℕ) (cs cd : JSQ) (ep : Episode),
      ep ∈ buildEpisodesAux raw l idx cs cd → ep.downloads = num 0 →
      ep.subscribersPerThousandDownloads = num 0 ∧ ep.sharesPerThousandDownloads = num 0 := by
  intro l
  induction l with
  | nil => intro idx cs cd ep hmem; simp [buildEpisodesAux] at hmem
  | cons item rest ih =>
    intro idx cs cd ep hmem hdl
    rw [buildEpisodesAux] at hmem
    rcases List.mem_cons.mp hmem with he | he
    · subst he
      simp only at hdl
      constructor <;> simp [hdl]
    · exact ih (idx + 1) _ _ ep he hdl

/-- C10: every published episode whose row had `downloads = 0` reports
exactly `0` (never `NaN` or `Infinity`) for both per-thousand-downloads
fields, mirroring the completion-rate guard. -/
theorem C10_per_thousand_guard :
    ∀ (raw : List PRow) (ep : Episode), ep ∈ (usePodcastDataMemo raw).episodes →
      ep.downloads = num 0 →
      ep.subscribersPerThousandDownloads = num 0 ∧ ep.sharesPerThousandDownloads = num 0 := by
  intro raw ep hmem hdl
  by_cases hr : raw.length = 0
  · rw [usePodcastDataMemo, if_pos hr] at hmem
    simp at hmem
  · rw [usePodcastDataMemo, if_neg hr] at hmem
    exact buildEpisodesAux_zero_downloads raw raw 0 (num 0) (num 0) ep hmem hdl

/-- C10 witness: the guard applied to a concrete one-row dataset with zero
downloads. -/
theorem C10_witness :
    ((usePodcastDataMemo [zeroDownloadsPRow]).episodes.getD 0
        blankEpisode).subscribersPerThousandDownloads = num 0
    ∧ ((usePodcastDataMemo [zeroDownloadsPRow]).episodes.getD 0
        blankEpisode).sharesPerThousandDownloads = num 0 := by
  have he : (usePodcastDataMemo [zeroDownloadsPRow]).episodes =
      buildEpisodesAux [zeroDownloadsPRow] [zeroDownloadsPRow] 0 (num 0) (num 0) := by
    rw [usePodcastDataMemo, if_neg (by simp)]
    rfl
  refine C10_per_thousand_guard [zeroDownloadsPRow] _ ?_ ?_
  · rw [he]
    rw [buildEpisodesAux, buildEpisodesAux]
    simp
  · rw [he]
    rw [buildEpisodesAux, buildEpisodesAux]
    rfl

/-- C9: for any single-row input series the half split is `floor(1/2) = 0`,
the early slice is empty, and the three early-vs-late summary figures are
all `NaN` in the published summary (no error is raised). -/
theorem C9_single_row_nan (r : PRow) :
    ((usePodcastDataMemo [r]).summary.map fun s =>
      (s.downloadsGrowthPercent, s.completionRateChange, s.newListenerShareChange)) =
      some (nan, nan, nan) := by
  rw [usePodcastDataMemo, if_neg (by simp)]
  simp only [Option.map_some]
  have hlen : (buildEpisodes [r]).length = 1 := buildEpisodesAux_length [r] [r] 0 _ _
  simp only [computeSummary, hlen]
  norm_num [arrAverage_nil]

/-- C4 (counterexample): on an empty input series the memoized computation
does not fail with any error — it returns normally, with `summary = null`
and no episodes. -/
theorem C4_counterexample :
    (usePodcastDataMemo []).summary = none ∧ (usePodcastDataMemo []).episodes = [] := by
  constructor <;> rfl

/-- C4 (amended): for an empty input series the hook short-circuits before
any statistic is computed and publishes `{ episodes: [], summary: null,
insights: {} }`; no `EmptySeriesError` exists and nothing is thrown — the
no-data case is signalled to the caller purely by `summary === null`. -/
theorem C4_empty_series :
    usePodcastDataMemo [] = { episodes := [], summary := none, insights := none } := rfl

/-- C8: a correlation-based insight uses the positive phrasing exactly when
its coefficient is `>= 0` and the caution phrasing exactly when it is
negative; a coefficient of exactly `0` takes the positive branch. -/
theorem C8_insight_phrasing (s : Summary) :
    ((insightsOf s).1 = Phrase.positive ↔ 0 ≤ s.sharesSubscribersCorrelation)
    ∧ ((insightsOf s).1 = Phrase.caution ↔ s.sharesSubscribersCorrelation < 0)
    ∧ ((insightsOf s).2 = Phrase.positive ↔ 0 ≤ s.durationCompletionCorrelation)
    ∧ ((insightsOf s).2 = Phrase.caution ↔ s.durationCompletionCorrelation < 0)
    ∧ (s.sharesSubscribersCorrelation = 0 → (insightsOf s).1 = Phrase.positive) := by
  refine ⟨?_, ?_, ?_, ?_, ?_⟩
  · by_cases h : 0 ≤ s.sharesSubscribersCorrelation
    · simp [insightsOf, h]
    · simp [insightsOf, h]
  · by_cases h : 0 ≤ s.sharesSubscribersCorrelation
    · simp [insightsOf, h, not_lt.mpr h]
    · simp [insightsOf, h, not_le.mp h]
  · by_cases h : 0 ≤ s.durationCompletionCorrelation
    · simp [insightsOf, h]
    · simp [insightsOf, h]
  · by_cases h : 0 ≤ s.durationCompletionCorrelation
    · simp [insightsOf, h, not_lt.mpr h]
    · simp [insightsOf, h, not_le.mp h]
  · intro h0
    simp [insightsOf, h0]

/-- C8 witness: the phrasing rule applied at a summary whose correlation is
exactly `0`: the positive branch is taken. -/
theorem C8_witness : (insightsOf zeroSummary).1 = Phrase.positive :=
  (C8_insight_phrasing zeroSummary).2.2.2.2 rfl

/-!  Correlation lemmas. -/

/-- Folding real addition of images equals the sum of the mapped list. -/
theorem foldl_add_real {α : Type} (l : List α) (h : α → ℝ) (a : ℝ) :
    l.foldl (fun s v => s + h v) a = a + (l.map h).sum := by
  induction l generalizing a with
  | nil => simp
  | cons x xs ih => simp [List.foldl, ih, add_assoc]

/-- The sum of a mapped real list as an indexed `Finset.range` sum. -/
theorem map_sum_range (l : List ℝ) (f : ℝ → ℝ) :
    (l.map f).sum = ∑ i ∈ Finset.range l.length, f (l.getD i 0) := by
  induction l with
  | nil => simp
  | cons x xs ih =>
    rw [List.map_cons, List.sum_cons, ih, List.length_cons, Finset.sum_range_succ']
    simp [List.getD]
    ring

/-- A real list's sum as an indexed `Finset.range` sum. -/
theorem list_sum_range (l : List ℝ) :
    l.sum = ∑ i ∈ Finset.range l.length, l.getD i 0 := by
  simpa using map_sum_range l id

/-- The indexed fold of `List.enumFrom` as an indexed `Finset.range` sum. -/
theorem enumFrom_foldl_add (l : List ℝ) (F : ℕ → ℝ → ℝ) :
    ∀ (k : ℕ) (a : ℝ),
      (List.enumFrom k l).foldl (fun s p => s + F p.1 p.2) a =
        a + ∑ i ∈ Finset.range l.length, F (k + i) (l.getD i 0) := by
  induction l with
  | nil => intro k a; simp
  | cons x xs ih =>
    intro k a
    rw [List.enumFrom, List.foldl, ih (k + 1) (a + F k x), List.length_cons,
      Finset.sum_range_succ']
    have : ∀ i, F (k + 1 + i) (xs.getD i 0) = F (k + (i + 1)) ((x :: xs).getD (i + 1) 0) := by
      intro i
      have e : k + 1 + i = k + (i + 1) := by omega
      rw [e]
      rfl
    simp only [this]
    have e2 : F (k + 0) ((x :: xs).getD 0 0) = F k x := rfl
    rw [e2]
    ring

/-- `varianceAt` as an indexed sum of squared deviations. -/
theorem varianceAt_eq (values : List ℝ) (m : ℝ) :
    varianceAt values m = ∑ i ∈ Finset.range values.length, (values.getD i 0 - m) ^ 2 := by
  rw [varianceAt, foldl_add_real values (fun v => (v - m) ^ 2) 0, zero_add,
    map_sum_range values (fun v => (v - m) ^ 2)]

/-- The source's indexed `reduce` numerator as an indexed sum of deviation
products. -/
theorem corrNumerator_eq (xs ys : List ℝ) (mx my : ℝ) :
    xs.enum.foldl (fun sum p => sum + (p.2 - mx) * (ys.getD p.1 0 - my)) 0 =
      ∑ i ∈ Finset.range xs.length, (xs.getD i 0 - mx) * (ys.getD i 0 - my) := by
  have h := enumFrom_foldl_add xs (fun i x => (x - mx) * (ys.getD i 0 - my)) 0 0
  simpa [List.enum] using h

/-- `correlation` on a non-empty series, in closed indexed-sum form. -/
theorem correlation_eq_sum {α : Type} (s : List α) (f g : α → ℝ) (h : s.length ≠ 0) :
    correlation s f g =
      if Real.sqrt
          ((∑ i ∈ Finset.range s.length,
             ((s.map f).getD i 0 - (s.map f).sum / (s.length : ℝ)) ^ 2) *
           (∑ i ∈ Finset.range s.length,
             ((s.map g).getD i 0 - (s.map g).sum / (s.length : ℝ)) ^ 2)) = 0
      then 0
      else
        (∑ i ∈ Finset.range s.length,
          ((s.map f).getD i 0 - (s.map f).sum / (s.length : ℝ)) *
          ((s.map g).getD i 0 - (s.map g).sum / (s.length : ℝ))) /
        Real.sqrt
          ((∑ i ∈ Finset.range s.length,
             ((s.map f).getD i 0 - (s.map f).sum / (s.length : ℝ)) ^ 2) *
           (∑ i ∈ Finset.range s.length,
             ((s.map g).getD i 0 - (s.map g).sum / (s.length : ℝ)) ^ 2)) := by
  simp only [correlation, List.length_map]
  rw [if_neg h]
  rw [corrNumerator_eq, varianceAt_eq, varianceAt_eq]
  simp only [List.length_map]

/-- Pearson correlation is symmetric in its two accessors. -/
theorem correlation_comm {α : Type} (s : List α) (f g : α → ℝ) :
    correlation s f g = correlation s g f := by
  by_cases h : s.length = 0
  · simp [correlation, List.length_map, h]
  · rw [correlation_eq_sum s f g h, correlation_eq_sum s g f h]
    have e1 : (∑ i ∈ Finset.range s.length,
        ((s.map f).getD i 0 - (s.map f).sum / (s.length : ℝ)) *
        ((s.map g).getD i 0 - (s.map g).sum / (s.length : ℝ))) =
        ∑ i ∈ Finset.range s.length,
        ((s.map g).getD i 0 - (s.map g).sum / (s.length : ℝ)) *
        ((s.map f).getD i 0 - (s.map f).sum / (s.length : ℝ)) :=
      Finset.sum_congr rfl (fun i _ => mul_comm _ _)
    have e2 : (∑ i ∈ Finset.range s.length,
        ((s.map f).getD i 0 - (s.map f).sum / (s.length : ℝ)) ^ 2) *
        (∑ i ∈ Finset.range s.length,
        ((s.map g).getD i 0 - (s.map g).sum / (s.length : ℝ)) ^ 2) =
        (∑ i ∈ Finset.range s.length,
        ((s.map g).getD i 0 - (s.map g).sum / (s.length : ℝ)) ^ 2) *
        (∑ i ∈ Finset.range s.length,
        ((s.map f).getD i 0 - (s.map f).sum / (s.length : ℝ)) ^ 2) := mul_comm _ _
    rw [e1, e2]

/-- Pearson correlation lies in `[-1, 1]` (Cauchy–Schwarz). -/
theorem correlation_bounds {α : Type} (s : List α) (f g : α → ℝ) :
    -1 ≤ correlation s f g ∧ correlation s f g ≤ 1 := by
  by_cases h : s.length = 0
  · simp [correlation, List.length_map, h]
  · rw [correlation_eq_sum s f g h]
    set vx := ∑ i ∈ Finset.range s.length,
      ((s.map f).getD i 0 - (s.map f).sum / (s.length : ℝ)) ^ 2 with hvx
    set vy := ∑ i ∈ Finset.range s.length,
      ((s.map g).getD i 0 - (s.map g).sum / (s.length : ℝ)) ^ 2 with hvy
    set sxy := ∑ i ∈ Finset.range s.length,
      ((s.map f).getD i 0 - (s.map f).sum / (s.length : ℝ)) *
      ((s.map g).getD i 0 - (s.map g).sum / (s.length : ℝ)) with hsxy
    by_cases hden : Real.sqrt (vx * vy) = 0
    · rw [if_pos hden]; norm_num
    · rw [if_neg hden]
      have hcs : sxy ^ 2 ≤ vx * vy := by
        rw [hsxy, hvx, hvy]
        exact Finset.sum_mul_sq_le_sq_mul_sq _ _ _
      have hpos : 0 < Real.sqrt (vx * vy) :=
        lt_of_le_of_ne (Real.sqrt_nonneg _) (Ne.symm hden)
      have habs : |sxy| ≤ Real.sqrt (vx * vy) := by
        have h1 : |sxy| = Real.sqrt (sxy ^ 2) := (Real.sqrt_sq_eq_abs sxy).symm
        rw [h1]
        exact Real.sqrt_le_sqrt hcs
      have hq : |sxy / Real.sqrt (vx * vy)| ≤ 1 := by
        rw [abs_div, abs_of_nonneg (Real.sqrt_nonneg _)]
        exact div_le_one_of_le habs (Real.sqrt_nonneg _)
      exact abs_le.mp hq

/-- A zero variance in the first variable forces the correlation to its
guarded value `0`. -/
theorem correlation_zero_var_left {α : Type} (s : List α) (f g : α → ℝ)
    (h : varianceAt (s.map f) ((s.map f).sum / (((s.map f).length : ℕ) : ℝ)) = 0) :
    correlation s f g = 0 := by
  by_cases hn : s.length = 0
  · simp [correlation, List.length_map, hn]
  · rw [correlation_eq_sum s f g hn]
    rw [varianceAt_eq] at h
    simp only [List.length_map] at h
    rw [h, zero_mul, Real.sqrt_zero, if_pos rfl]

/-- A zero variance in the second variable forces the correlation to its
guarded value `0`. -/
theorem correlation_zero_var_right {α : Type} (s : List α) (f g : α → ℝ)
    (h : varianceAt (s.map g) ((s.map g).sum / (((s.map g).length : ℕ) : ℝ)) = 0) :
    correlation s f g = 0 := by
  by_cases hn : s.length = 0
  · simp [correlation, List.length_map, hn]
  · rw [correlation_eq_sum s f g hn]
    rw [varianceAt_eq] at h
    simp only [List.length_map] at h
    rw [h, mul_zero, Real.sqrt_zero, if_pos rfl]

/-- A perfectly linear pair `g = a·f + b` with non-degenerate `f` has
correlation `1` for increasing (`a > 0`) and `-1` for decreasing
(`a < 0`) relationships. -/
theorem correlation_linear {α : Type} (s : List α) (f g : α → ℝ) (a b : ℝ)
    (hlin : ∀ x ∈ s, g x = a * f x + b)
    (hvar : varianceAt (s.map f) ((s.map f).sum / (((s.map f).length : ℕ) : ℝ)) ≠ 0) :
    (0 < a → correlation s f g = 1) ∧ (a < 0 → correlation s f g = -1) := by
  have hn : s.length ≠ 0 := by
    intro h0
    apply hvar
    rw [List.length_eq_zero.mp h0]
    simp [varianceAt]
  have hnr : ((s.length : ℕ) : ℝ) ≠ 0 := Nat.cast_ne_zero.mpr hn
  have hSxx : varianceAt (s.map f) ((s.map f).sum / (((s.map f).length : ℕ) : ℝ)) =
      ∑ i ∈ Finset.range s.length,
        ((s.map f).getD i 0 - (s.map f).sum / (s.length : ℝ)) ^ 2 := by
    rw [varianceAt_eq]
    simp only [List.length_map]
  rw [hSxx] at hvar
  have hSxx_nonneg : 0 ≤ ∑ i ∈ Finset.range s.length,
      ((s.map f).getD i 0 - (s.map f).sum / (s.length : ℝ)) ^ 2 :=
    Finset.sum_nonneg (fun i _ => sq_nonneg _)
  have hSxx_pos : 0 < ∑ i ∈ Finset.range s.length,
      ((s.map f).getD i 0 - (s.map f).sum / (s.length : ℝ)) ^ 2 :=
    lt_of_le_of_ne hSxx_nonneg (Ne.symm hvar)
  have hpt : ∀ i, i < s.length → (s.map g).getD i 0 = a * (s.map f).getD i 0 + b := by
    intro i hi
    rw [List.getD_eq_getElem?_getD, List.getElem?_eq_getElem (by simpa using hi),
      List.getD_eq_getElem?_getD,
      List.getElem?_eq_getElem (l := s.map f) (by simpa using hi)]
    simp only [List.getElem_map, Option.getD_some]
    exact hlin _ (List.getElem_mem hi)
  have hsumg : (s.map g).sum = a * (s.map f).sum + (s.length : ℝ) * b := by
    rw [list_sum_range (s.map g), list_sum_range (s.map f)]
    simp only [List.length_map]
    rw [Finset.sum_congr rfl (fun i hi => hpt i (Finset.mem_range.mp hi))]
    rw [Finset.sum_add_distrib, ← Finset.mul_sum, Finset.sum_const, Finset.card_range]
    rw [nsmul_eq_mul]
  have hmy : (s.map g).sum / (s.length : ℝ) = a * ((s.map f).sum / (s.length : ℝ)) + b := by
    rw [hsumg, add_div, mul_div_assoc, mul_comm (s.length : ℝ) b, mul_div_assoc,
      div_self hnr, mul_one]
  have hY : ∀ i, i < s.length →
      (s.map g).getD i 0 - (s.map g).sum / (s.length : ℝ) =
        a * ((s.map f).getD i 0 - (s.map f).sum / (s.length : ℝ)) := by
    intro i hi
    rw [hpt i hi, hmy]
    ring
  have hSxy : (∑ i ∈ Finset.range s.length,
      ((s.map f).getD i 0 - (s.map f).sum / (s.length : ℝ)) *
      ((s.map g).getD i 0 - (s.map g).sum / (s.length : ℝ))) =
      a * ∑ i ∈ Finset.range s.length,
        ((s.map f).getD i 0 - (s.map f).sum / (s.length : ℝ)) ^ 2 := by
    rw [Finset.mul_sum]
    refine Finset.sum_congr rfl (fun i hi => ?_)
    rw [hY i (Finset.mem_range.mp hi)]
    ring
  have hSyy : (∑ i ∈ Finset.range s.length,
      ((s.map g).getD i 0 - (s.map g).sum / (s.length : ℝ)) ^ 2) =
      a ^ 2 * ∑ i ∈ Finset.range s.length,
        ((s.map f).getD i 0 - (s.map f).sum / (s.length : ℝ)) ^ 2 := by
    rw [Finset.mul_sum]
    refine Finset.sum_congr rfl (fun i hi => ?_)
    rw [hY i (Finset.mem_range.mp hi)]
    ring
  have hprod : (∑ i ∈ Finset.range s.length,
      ((s.map f).getD i 0 - (s.map f).sum / (s.length : ℝ)) ^ 2) *
      (∑ i ∈ Finset.range s.length,
      ((s.map g).getD i 0 - (s.map g).sum / (s.length : ℝ)) ^ 2) =
      (a * ∑ i ∈ Finset.range s.length,
        ((s.map f).getD i 0 - (s.map f).sum / (s.length : ℝ)) ^ 2) ^ 2 := by
    rw [hSyy]
    ring
  have hsqrt : Real.sqrt ((∑ i ∈ Finset.range s.length,
      ((s.map f).getD i 0 - (s.map f).sum / (s.length : ℝ)) ^ 2) *
      (∑ i ∈ Finset.range s.length,
      ((s.map g).getD i 0 - (s.map g).sum / (s.length : ℝ)) ^ 2)) =
      |a| * ∑ i ∈ Finset.range s.length,
        ((s.map f).getD i 0 - (s.map f).sum / (s.length : ℝ)) ^ 2 := by
    rw [hprod, Real.sqrt_sq_eq_abs, abs_mul, abs_of_pos hSxx_pos]
  constructor
  · intro ha
    rw [correlation_eq_sum s f g hn, hsqrt, hSxy, abs_of_pos ha]
    rw [if_neg (by positivity)]
    exact div_self (by positivity)
  · intro ha
    have hna : (0 : ℝ) < -a := by linarith
    rw [correlation_eq_sum s f g hn, hsqrt, hSxy, abs_of_neg ha]
    have hne : -a * ∑ i ∈ Finset.range s.length,
        ((s.map f).getD i 0 - (s.map f).sum / (s.length : ℝ)) ^ 2 ≠ 0 := by positivity
    rw [if_neg hne]
    rw [div_eq_iff hne]
    ring

/-- C6: Pearson correlation is symmetric and bounded in `[-1,1]`; it is
exactly `0` on an empty series and whenever either variable has zero
variance (the source's divide-by-zero guard); and a perfectly linear pair
yields `+1` when increasing and `-1` when decreasing. -/
theorem C6_correlation_props {α : Type} (s : List α) (f g : α → ℝ) :
    correlation s f g = correlation s g f
    ∧ (-1 ≤ correlation s f g ∧ correlation s f g ≤ 1)
    ∧ (s = [] → correlation s f g = 0)
    ∧ (varianceAt (s.map f) ((s.map f).sum / (((s.map f).length : ℕ) : ℝ)) = 0 →
        correlation s f g = 0)
    ∧ (varianceAt (s.map g) ((s.map g).sum / (((s.map g).length : ℕ) : ℝ)) = 0 →
        correlation s f g = 0)
    ∧ (∀ a b : ℝ, (∀ x ∈ s, g x = a * f x + b) →
        varianceAt (s.map f) ((s.map f).sum / (((s.map f).length : ℕ) : ℝ)) ≠ 0 →
        (0 < a → correlation s f g = 1) ∧ (a < 0 → correlation s f g = -1)) := by
  refine ⟨correlation_comm s f g, correlation_bounds s f g, ?_,
    correlation_zero_var_left s f g, correlation_zero_var_right s f g,
    fun a b hl hv => correlation_linear s f g a b hl hv⟩
  intro h
  rw [h]
  simp [correlation]

/-- C6 witness: the linear law applied to the increasing pair
`y = 2·x` over `x = [1,2,3]`, giving correlation exactly `1`. -/
theorem C6_witness :
    correlation [((1 : ℝ), (2 : ℝ)), (2, 4), (3, 6)] Prod.fst Prod.snd = 1 := by
  have h := (C6_correlation_props [((1 : ℝ), (2 : ℝ)), (2, 4), (3, 6)]
    Prod.fst Prod.snd).2.2.2.2.2 2 0 ?_ ?_
  · exact h.1 (by norm_num)
  · intro x hx
    fin_cases hx <;> norm_num
  · norm_num [varianceAt, List.foldl]
